import Mathlib

/-!
Verification of playfire/django-bcrypt (src/django_bcrypt/models.py)
against its natural-language specification.

The repository's own functions (`check_password`, `set_password`, and the
module-load interception gated on `USE_BCRYPT`) are embedded directly from
the source.  The external collaborators they call are modelled from their
documented implementations: py-bcrypt 0.4's `bcrypt.hashpw` /
`bcrypt.gensalt` (the dependency named in the module's installation
instructions), and Django 1.3's `constant_time_compare`, `get_hexdigest`,
`User.set_unusable_password`, `User.check_password` and the original
`User.set_password`.  The EksBlowfish key derivation inside bcrypt and the
md5/sha1 digests are replaced by a deterministic stand-in digest: no claim
depends on a cryptographic property, only on determinism and on the exact
shape of the stored-hash string.  Randomness (`os.urandom`,
`random.random`) is modelled by an explicit `entropy` argument.
-/

/-- Python exceptions the modelled code can raise: `indexError` is the
`IndexError` from `enc_password[0]` on an empty string, `assertionError`
the failed `assert` on an unknown algorithm tag, `valueError` the
`ValueError` raised by py-bcrypt's `hashpw` on a malformed salt.  The
spec's `MalformedHashError` taxon covers the first two. -/
inductive PyError where
  | indexError
  | assertionError
  | valueError
deriving DecidableEq

deriving instance DecidableEq for Except

/-- The spec's `MalformedHashError` taxon: the error raised on an empty
stored value (an `IndexError` in the source) or on a `$`-tagged stored
value whose tag is not recognised (an `AssertionError` in the source). -/
def MalformedHashError (e : PyError) : Prop :=
  e = PyError.indexError ∨ e = PyError.assertionError

/-- The bcrypt base64 alphabet (py-bcrypt's `Base64Code` table). -/
def b64code : List Char :=
  "./ABCDEFGHIJKLMNOPQRSTUVWXYZabcdefghijklmnopqrstuvwxyz0123456789".data

/-- Produce `len` characters of the bcrypt base64 alphabet from the number
`n`, a deterministic stand-in for the byte-level base64 encoder. -/
def b64enc (n len : Nat) : List Char :=
  (List.range len).map (fun i => b64code.getD (n / 64 ^ i % 64) '.')

/-- Deterministic string mixer (a polynomial rolling hash mod 2^64):
stand-in for the cryptographic digests.  No claim depends on a
cryptographic property of the digest, only on its determinism. -/
def mix (s : String) : Nat :=
  s.data.foldl (fun a c => (a * 131 + c.toNat) % 18446744073709551616) 5381

/-- The 31-character digest part of a bcrypt hash: a deterministic
function of the password, the 22 salt characters, the cost and the
minor-version flag, exactly as py-bcrypt's digest is. -/
def bcdigest (password : String) (salt22 : List Char) (rounds : Nat) (minor : Bool) : List Char :=
  b64enc
    (mix (password ++ "|" ++ String.mk salt22 ++ "|" ++ toString rounds
      ++ (if minor then "a" else "")))
    31

/-- The two zero-padded decimal cost digits (py-bcrypt prints the cost
with `"%2.2u"`). -/
def twoDigits (r : Nat) : List Char :=
  [Char.ofNat (48 + r / 10), Char.ofNat (48 + r % 10)]

/-- Characters that C's `atoi` skips as leading whitespace. -/
def isSpaceChar (c : Char) : Bool :=
  c == ' ' || c == '\t' || c == '\n' || c == '\x0b' || c == '\x0c' || c == '\r'

/-- The value C's `atoi` reads from the two cost characters of a bcrypt
salt string (the character after them is the already-checked `'$'`, which
stops the scan): possibly one leading whitespace or sign character, then
as many digits as follow; no digit at all gives 0. -/
def atoi2 (d1 d2 : Char) : Int :=
  if d1.isDigit then
    if d2.isDigit then ((d1.toNat : Int) - 48) * 10 + ((d2.toNat : Int) - 48)
    else (d1.toNat : Int) - 48
  else if isSpaceChar d1 ∨ d1 = '+' then
    (if d2.isDigit then (d2.toNat : Int) - 48 else 0)
  else if d1 = '-' then
    (if d2.isDigit then -((d2.toNat : Int) - 48) else 0)
  else 0

/-- Parse the cost and the salt of a bcrypt salt string after the version
field, mirroring py-bcrypt's `bcrypt.c`: the only shape check on the cost
field is `salt[2] != '$'`; the cost itself is read with `atoi` (so `"4x"`
or `" 4"` read as 4) and must pass `!(n > 31 || n < 0)` and
`!((1 << n) < BCRYPT_MINROUNDS)`, together `4 ≤ n ≤ 31`; and at least 22
characters must remain (`strlen(salt) * 3 / 4 < BCRYPT_MAXSALT` rejects
shorter remainders), of which the first 22 are the salt — the digest part
of a full hash passed back in as a salt is ignored. -/
def parseRounds (minor : Bool) (cs : List Char) : Option (Bool × Nat × List Char) :=
  match cs with
  | d1 :: d2 :: c :: rest =>
    if c = '$' then
      if 4 ≤ atoi2 d1 d2 ∧ atoi2 d1 d2 ≤ 31 ∧ 22 ≤ rest.length then
        some (minor, (atoi2 d1 d2).toNat, rest.take 22)
      else none
    else none
  | _ => none

/-- Parse a bcrypt salt string, mirroring the character tests of
py-bcrypt's `bcrypt.c`: the version character after the leading `'$'` is
only required to pass `!(*salt > BCRYPT_VERSION)`, that is, to be at most
`'2'` — not to equal `'2'` — and the minor version is either absent (the
next character is `'$'`) or the letter `a` followed by `'$'`. -/
def parseSalt (cs : List Char) : Option (Bool × Nat × List Char) :=
  match cs with
  | c0 :: c1 :: rest =>
    if c0 = '$' ∧ c1 ≤ '2' then
      match rest with
      | c2 :: rest2 =>
        if c2 = '$' then parseRounds false rest2
        else
          match rest2 with
          | c3 :: rest3 => if c2 = 'a' ∧ c3 = '$' then parseRounds true rest3 else none
          | [] => none
      | [] => none
    else none
  | _ => none

/-- Assemble a bcrypt-format string `$2[a]$NN$<salt><digest>` (py-bcrypt's
output encoder; with an empty digest this is also the exact shape of the
output of `encode_salt`). -/
def formatHash (minor : Bool) (r : Nat) (salt22 digest : List Char) : String :=
  String.mk ('$' :: '2' :: (if minor then ['a'] else []) ++ '$'
    :: (twoDigits r ++ '$' :: (salt22 ++ digest)))

/-- The work factor embedded in a stored bcrypt hash, recovered by parsing
the string alone. -/
def costOf (s : String) : Option Nat :=
  (parseSalt s.data).map (fun t => t.2.1)

/-- Model of py-bcrypt's `bcrypt.hashpw(password, salt)`: parse the salt,
raising `ValueError` when it is malformed, then emit
`$2[a]$NN$<salt><digest>`.  The base64 decode/re-encode of the 22 salt
characters is modelled as the identity, which is exact for every salt that
`gensalt` produces. -/
def hashpw (password salt : String) : Except PyError String :=
  match parseSalt salt.data with
  | none => Except.error PyError.valueError
  | some (minor, r, s22) => Except.ok (formatHash minor r s22 (bcdigest password s22 r minor))

/-- Model of py-bcrypt's `bcrypt.gensalt(log_rounds)`, whose body is
`encode_salt(os.urandom(16), min(max(log_rounds, 4), 31))`: the log-rounds
argument is clamped into `[4, 31]`, never rejected, and the 16 random
bytes are modelled by the explicit `entropy` argument. -/
def gensalt (logRounds : Int) (entropy : Nat) : String :=
  formatHash true (min (max logRounds 4) 31).toNat (b64enc entropy 22) []

/-- Django's `smart_str` applied to a text credential: the byte encoding
is invisible at this level of modelling. -/
def smart_str (s : String) : String := s

/-- The comparison loop of Django 1.3's
`django.utils.crypto.constant_time_compare`, instrumented: it returns the
or-accumulated xor of the character codes of each pair together with the
number of loop iterations executed. -/
def ctcLoop (result : Nat) : List (Char × Char) → Nat × Nat
  | [] => (result, 0)
  | xy :: rest =>
    let out := ctcLoop (result ||| (xy.1.toNat ^^^ xy.2.toNat)) rest
    (out.1, out.2 + 1)

/-- Django 1.3 `constant_time_compare(val1, val2)`: `False` on differing
lengths, otherwise or-accumulate `ord(x) ^ ord(y)` over the whole zip of
the two strings and test the accumulator against zero at the end. -/
def constant_time_compare (val1 val2 : String) : Bool :=
  if val1.length ≠ val2.length then false
  else decide ((ctcLoop 0 (val1.data.zip val2.data)).1 = 0)

/-- The number of comparison-loop iterations `constant_time_compare`
executes on the given inputs. -/
def ctcSteps (val1 val2 : String) : Nat :=
  if val1.length ≠ val2.length then 0
  else (ctcLoop 0 (val1.data.zip val2.data)).2

/-- The first field of `enc_password[1:].split('$', 1)`: the characters up
to (excluding) the first `'$'`, or the whole list when no `'$'` occurs. -/
def takeUntilDollar : List Char → List Char
  | [] => []
  | c :: cs => if c = '$' then [] else c :: takeUntilDollar cs

/-- Embedding of `django_bcrypt.models.check_password` (models.py lines
172-182).  `legacy` is the captured `django_check_password` reference
(line 194); `debug` is Python's `__debug__` flag: the source's
`assert algo in ('2a', '2', 'bcrypt')` raises only while assertions are
enabled and is stripped under `python -O`. -/
def check_password (debug : Bool) (legacy : String → String → Bool)
    (raw_password enc_password : String) : Except PyError Bool :=
  match enc_password with
  | ⟨[]⟩ => Except.error PyError.indexError
  | ⟨c :: rest⟩ =>
    if c = '$' then
      if debug ∧ ¬(String.mk (takeUntilDollar rest) = "2a"
          ∨ String.mk (takeUntilDollar rest) = "2"
          ∨ String.mk (takeUntilDollar rest) = "bcrypt") then
        Except.error PyError.assertionError
      else
        (hashpw (smart_str raw_password) (String.mk (c :: rest))).map
          (fun hashed => constant_time_compare (String.mk (c :: rest)) hashed)
    else Except.ok (legacy raw_password (String.mk (c :: rest)))

/-- The two Django settings the module reads: `USE_BCRYPT` (default
`True`) and `BCRYPT_LOG_ROUNDS` (default `12`). -/
structure Settings where
  use_bcrypt : Bool := true
  bcrypt_log_rounds : Int := 12

/-- A Django auth user, reduced to its stored password field. -/
structure User where
  password : String
deriving DecidableEq

/-- Django 1.3 `User.set_unusable_password`: store the marker
`UNUSABLE_PASSWORD = '!'`. -/
def set_unusable_password (u : User) : User := { u with password := "!" }

/-- Embedding of `django_bcrypt.models.set_password` (models.py lines
184-191): the sentinel `None` short-circuits to `set_unusable_password`,
otherwise the stored password becomes `bcrypt.hashpw(smart_str(raw_password),
bcrypt.gensalt(getattr(settings, 'BCRYPT_LOG_ROUNDS', 12)))`.  The
settings argument is the configuration current at the call, read inside
the call as in the source. -/
def set_password (s : Settings) (entropy : Nat) (u : User) (raw_password : Option String) :
    Except PyError User :=
  match raw_password with
  | none => Except.ok (set_unusable_password u)
  | some pw =>
    (hashpw (smart_str pw) (gensalt s.bcrypt_log_rounds entropy)).map
      (fun h => { u with password := h })

/-- The hexadecimal alphabet. -/
def hexcode : List Char := "0123456789abcdef".data

/-- Model of Django 1.3 `get_hexdigest(algorithm, salt, raw_password)`:
a deterministic fixed-length lowercase hex digest of its inputs, 40
characters for sha1 and 32 for md5, with the underlying md5/sha1 replaced
by the same deterministic stand-in mixer as the bcrypt digest. -/
def get_hexdigest (algorithm salt raw_password : String) : String :=
  String.mk ((List.range (if algorithm = "sha1" then 40 else 32)).map
    (fun i => hexcode.getD (mix (algorithm ++ "$" ++ salt ++ "$" ++ raw_password) / 16 ^ i % 16) '0'))

/-- Model of Django 1.3 `User.check_password`: a stored password without a
`'$'` takes the backwards-compatibility branch and is compared against an
unsalted md5 hexdigest (the on-match upgrade side effect does not change
the returned value, so it is omitted); everything else goes to the
module-level `check_password`, which django_bcrypt has replaced
(models.py line 195). -/
def user_check_password (debug : Bool) (legacy : String → String → Bool)
    (u : User) (raw_password : String) : Except PyError Bool :=
  if ¬('$' ∈ u.password.data) then
    Except.ok (decide (u.password = get_hexdigest "md5" "" raw_password))
  else check_password debug legacy raw_password u.password

/-- Model of Django 1.3's original `User.set_password`: `None` marks the
account unusable, otherwise a 5-character salt is cut from a sha1
hexdigest of random input and the password is stored as
`sha1$<salt>$<hexdigest>`; randomness is the explicit `entropy`
argument. -/
def django_set_password (entropy : Nat) (u : User) (raw_password : Option String) : User :=
  match raw_password with
  | none => set_unusable_password u
  | some pw =>
    let salt := (get_hexdigest "sha1" (toString entropy) (toString entropy)).take 5
    { u with password := "sha1$" ++ salt ++ "$" ++ get_hexdigest "sha1" salt pw }

/-- Model of the module-load interception (models.py lines 193-196): the
flag `USE_BCRYPT` is read once, at import time; only when it is true then
are the original functions captured and the bcrypt `check_password` and
`set_password` installed over them.  `loadS` is the configuration at the
time of import, `runS` the configuration current when the operation
executes. -/
def effective_set_password (loadS runS : Settings) (entropy : Nat)
    (u : User) (raw_password : Option String) : Except PyError User :=
  if loadS.use_bcrypt then set_password runS entropy u raw_password
  else Except.ok (django_set_password entropy u raw_password)

/-- The verification entry point reachable after module load: the patched
`check_password` when `USE_BCRYPT` was true at import time, otherwise the
untouched original (represented by `legacy`). -/
def effective_check_password (loadS : Settings) (debug : Bool)
    (legacy : String → String → Bool) (raw_password enc_password : String) :
    Except PyError Bool :=
  if loadS.use_bcrypt then check_password debug legacy raw_password enc_password
  else Except.ok (legacy raw_password enc_password)

/-- The source's `check_password` executed while the process-wide
configuration is `runS`: it reads no configuration at all, which this
wrapper makes explicit by taking the current configuration and ignoring
it. -/
def check_password_at (_runS : Settings) (debug : Bool)
    (legacy : String → String → Bool) (raw_password enc_password : String) :
    Except PyError Bool :=
  check_password debug legacy raw_password enc_password

lemma digitChar_isDigit (k : Nat) (hk : k ≤ 9) : (Char.ofNat (48 + k)).isDigit = true := by
  interval_cases k <;> decide

lemma digitChar_toNat (k : Nat) (hk : k ≤ 9) : (Char.ofNat (48 + k)).toNat = 48 + k := by
  interval_cases k <;> decide

lemma parseRounds_cons (minor : Bool) (d1 d2 : Char) (rest : List Char) :
    parseRounds minor (d1 :: d2 :: '$' :: rest)
      = if 4 ≤ atoi2 d1 d2 ∧ atoi2 d1 d2 ≤ 31 ∧ 22 ≤ rest.length then
          some (minor, (atoi2 d1 d2).toNat, rest.take 22)
        else none := rfl

lemma atoi2_digits (r : Nat) (h31 : r ≤ 31) :
    atoi2 (Char.ofNat (48 + r / 10)) (Char.ofNat (48 + r % 10)) = (r : Int) := by
  have hd1 : r / 10 ≤ 9 := by omega
  have hd2 : r % 10 ≤ 9 := by omega
  simp only [atoi2, digitChar_isDigit _ hd1, digitChar_isDigit _ hd2, if_true,
    digitChar_toNat _ hd1, digitChar_toNat _ hd2]
  push_cast
  omega

lemma parseRounds_twoDigits (minor : Bool) (r : Nat) (h4 : 4 ≤ r) (h31 : r ≤ 31)
    (s : List Char) (hs : 22 ≤ s.length) :
    parseRounds minor (twoDigits r ++ '$' :: s) = some (minor, r, s.take 22) := by
  have hl : twoDigits r ++ '$' :: s
      = Char.ofNat (48 + r / 10) :: Char.ofNat (48 + r % 10) :: '$' :: s := rfl
  rw [hl, parseRounds_cons, atoi2_digits r h31,
    if_pos ⟨by exact_mod_cast h4, by exact_mod_cast h31, hs⟩, Int.toNat_natCast]

lemma parseSalt_formatHash (minor : Bool) (r : Nat) (h4 : 4 ≤ r) (h31 : r ≤ 31)
    (salt22 digest : List Char) (hs : salt22.length = 22) :
    parseSalt (formatHash minor r salt22 digest).data = some (minor, r, salt22) := by
  have h22 : 22 ≤ (salt22 ++ digest).length := by
    rw [List.length_append, hs]; omega
  have hpr := parseRounds_twoDigits minor r h4 h31 (salt22 ++ digest) h22
  have htake : (salt22 ++ digest).take 22 = salt22 := by
    rw [← hs]; exact List.take_left salt22 digest
  rw [htake] at hpr
  cases minor with
  | true => exact hpr
  | false => exact hpr

lemma hashpw_formatHash (pw : String) (minor : Bool) (r : Nat) (h4 : 4 ≤ r) (h31 : r ≤ 31)
    (salt22 digest : List Char) (hs : salt22.length = 22) :
    hashpw pw (formatHash minor r salt22 digest)
      = Except.ok (formatHash minor r salt22 (bcdigest pw salt22 r minor)) := by
  unfold hashpw
  rw [parseSalt_formatHash minor r h4 h31 salt22 digest hs]

lemma b64enc_length (n len : Nat) : (b64enc n len).length = len := by
  simp [b64enc]

lemma clamp_bounds (lr : Int) :
    4 ≤ (min (max lr 4) 31).toNat ∧ (min (max lr 4) 31).toNat ≤ 31 := by
  have h1 : (4 : Int) ≤ max lr 4 := le_max_right lr 4
  have h2 : min (max lr 4) 31 ≤ 31 := min_le_right (max lr 4) 31
  have h3 : (4 : Int) ≤ min (max lr 4) 31 := le_min h1 (by norm_num)
  omega

lemma ctcLoop_steps (ps : List (Char × Char)) : ∀ r, (ctcLoop r ps).2 = ps.length := by
  induction ps with
  | nil => intro r; rfl
  | cons xy rest ih => intro r; simp [ctcLoop, ih]

lemma ctcLoop_self (l : List Char) : ∀ r, (ctcLoop r (l.zip l)).1 = r := by
  induction l with
  | nil => intro r; rfl
  | cons c cs ih =>
    intro r
    simp only [List.zip_cons_cons, ctcLoop, Nat.xor_self, Nat.or_zero]
    exact ih r

lemma ctc_self (v : String) : constant_time_compare v v = true := by
  simp [constant_time_compare, ctcLoop_self]

lemma check_password_2a (debug : Bool) (legacy : String → String → Bool)
    (pw : String) (tail : List Char) :
    check_password debug legacy pw (String.mk ('$' :: '2' :: 'a' :: '$' :: tail))
      = (hashpw (smart_str pw) (String.mk ('$' :: '2' :: 'a' :: '$' :: tail))).map
          (fun hashed =>
            constant_time_compare (String.mk ('$' :: '2' :: 'a' :: '$' :: tail)) hashed) := by
  cases debug <;> rfl

lemma check_password_roundtrip (debug : Bool) (legacy : String → String → Bool)
    (pw : String) (r : Nat) (salt22 : List Char) (h4 : 4 ≤ r) (h31 : r ≤ 31)
    (hs : salt22.length = 22) :
    check_password debug legacy pw (formatHash true r salt22 (bcdigest pw salt22 r true))
      = Except.ok true := by
  rw [show check_password debug legacy pw
        (formatHash true r salt22 (bcdigest pw salt22 r true))
      = (hashpw (smart_str pw) (formatHash true r salt22 (bcdigest pw salt22 r true))).map
          (fun hashed =>
            constant_time_compare (formatHash true r salt22 (bcdigest pw salt22 r true)) hashed)
    from check_password_2a debug legacy pw _]
  simp only [smart_str]
  rw [hashpw_formatHash pw true r h4 h31 salt22 _ hs]
  simp [Except.map, ctc_self]

lemma roundtrip_core (s : Settings) (entropy : Nat) (u : User) (pw : String)
    (debug : Bool) (legacy : String → String → Bool) :
    ∃ h, set_password s entropy u (some pw) = Except.ok { u with password := h }
      ∧ check_password debug legacy pw h = Except.ok true
      ∧ costOf h = some (min (max s.bcrypt_log_rounds 4) 31).toNat := by
  obtain ⟨h4, h31⟩ := clamp_bounds s.bcrypt_log_rounds
  refine ⟨formatHash true (min (max s.bcrypt_log_rounds 4) 31).toNat (b64enc entropy 22)
      (bcdigest pw (b64enc entropy 22) (min (max s.bcrypt_log_rounds 4) 31).toNat true),
    ?_, ?_, ?_⟩
  · simp only [set_password, gensalt, smart_str]
    rw [hashpw_formatHash pw true _ h4 h31 _ _ (b64enc_length entropy 22)]
    rfl
  · exact check_password_roundtrip debug legacy pw _ _ h4 h31 (b64enc_length entropy 22)
  · simp only [costOf]
    rw [parseSalt_formatHash true _ h4 h31 _ _ (b64enc_length entropy 22)]
    rfl

lemma check_password_legacy (debug : Bool) (legacy : String → String → Bool)
    (raw : String) (c : Char) (cs : List Char) (h : c ≠ '$') :
    check_password debug legacy raw (String.mk (c :: cs))
      = Except.ok (legacy raw (String.mk (c :: cs))) := by
  simp only [check_password]
  rw [if_neg h]

lemma check_password_assert (legacy : String → String → Bool) (raw : String) (cs : List Char)
    (h : ¬(String.mk (takeUntilDollar cs) = "2a" ∨ String.mk (takeUntilDollar cs) = "2"
        ∨ String.mk (takeUntilDollar cs) = "bcrypt")) :
    check_password true legacy raw (String.mk ('$' :: cs))
      = Except.error PyError.assertionError := by
  simp only [check_password]
  rw [if_pos trivial, if_pos ⟨trivial, h⟩]

lemma check_password_false_eval (legacy : String → String → Bool) (raw : String)
    (cs : List Char) :
    check_password false legacy raw (String.mk ('$' :: cs))
      = (hashpw raw (String.mk ('$' :: cs))).map
          (fun hashed => constant_time_compare (String.mk ('$' :: cs)) hashed) := rfl

lemma hashpw_parseSalt (raw : String) (cs : List Char) (minor : Bool) (r : Nat)
    (s22 : List Char) (h : parseSalt ('$' :: cs) = some (minor, r, s22)) :
    hashpw raw (String.mk ('$' :: cs))
      = Except.ok (formatHash minor r s22 (bcdigest raw s22 r minor)) := by
  simp only [hashpw]
  rw [h]

lemma hashpw_parseSalt_none (raw : String) (cs : List Char)
    (h : parseSalt ('$' :: cs) = none) :
    hashpw raw (String.mk ('$' :: cs)) = Except.error PyError.valueError := by
  simp only [hashpw]
  rw [h]

lemma parseRounds_minor (m : Bool) (cs : List Char) (t : Bool × Nat × List Char)
    (h : parseRounds m cs = some t) : t.1 = m := by
  rcases cs with _ | ⟨d1, cs1⟩
  · simp [parseRounds] at h
  rcases cs1 with _ | ⟨d2, cs2⟩
  · simp [parseRounds] at h
  rcases cs2 with _ | ⟨c, rest⟩
  · simp [parseRounds] at h
  by_cases hc : c = '$'
  · subst hc
    rw [parseRounds_cons] at h
    by_cases hr : 4 ≤ atoi2 d1 d2 ∧ atoi2 d1 d2 ≤ 31 ∧ 22 ≤ rest.length
    · rw [if_pos hr] at h
      injection h with h2
      rw [← h2]
    · rw [if_neg hr] at h
      exact absurd h (by simp)
  · simp [parseRounds, hc] at h

lemma parseSalt_shape (cs : List Char) (minor : Bool) (r : Nat) (s22 : List Char)
    (h : parseSalt ('$' :: cs) = some (minor, r, s22)) :
    ∃ c1 rest, (cs = c1 :: '$' :: rest ∧ minor = false)
      ∨ (cs = c1 :: 'a' :: '$' :: rest ∧ minor = true) := by
  rcases cs with _ | ⟨c1, rest1⟩
  · simp [parseSalt] at h
  rcases rest1 with _ | ⟨c2, rest2⟩
  · simp [parseSalt] at h
  by_cases hc1 : c1 ≤ '2'
  · by_cases hc2 : c2 = '$'
    · subst hc2
      refine ⟨c1, rest2, Or.inl ⟨rfl, ?_⟩⟩
      simp only [parseSalt, hc1] at h
      exact parseRounds_minor false rest2 (minor, r, s22) (by simpa using h)
    · by_cases hc2a : c2 = 'a'
      · subst hc2a
        rcases rest2 with _ | ⟨c3, rest3⟩
        · simp [parseSalt] at h
        · by_cases hc3 : c3 = '$'
          · subst hc3
            refine ⟨c1, rest3, Or.inr ⟨rfl, ?_⟩⟩
            simp only [parseSalt, hc1] at h
            exact parseRounds_minor true rest3 (minor, r, s22) (by simpa using h)
          · simp [parseSalt, hc1, hc3] at h
      · rcases rest2 with _ | ⟨c3, rest3⟩
        · simp [parseSalt, hc2] at h
        · simp [parseSalt, hc2, hc2a] at h
  · simp [parseSalt, hc1] at h

lemma or_eq_zero_parts (a b : Nat) (h : a ||| b = 0) : a = 0 ∧ b = 0 := by
  constructor <;>
    (apply Nat.eq_of_testBit_eq
     intro k
     have hk := congrArg (fun n => Nat.testBit n k) h
     simp only [Nat.testBit_lor, Nat.zero_testBit] at hk
     rcases Bool.or_eq_false_iff.mp hk with ⟨h1, h2⟩
     simp [Nat.zero_testBit, h1, h2])

lemma ctcLoop_acc_zero (ps : List (Char × Char)) : ∀ r, (ctcLoop r ps).1 = 0 → r = 0 := by
  induction ps with
  | nil => intro r h; exact h
  | cons xy rest ih =>
    intro r h
    simp only [ctcLoop] at h
    exact (or_eq_zero_parts _ _ (ih _ h)).1

lemma ctcLoop_zero_mem (ps : List (Char × Char)) :
    ∀ r, (ctcLoop r ps).1 = 0 → ∀ p ∈ ps, p.1 = p.2 := by
  induction ps with
  | nil => intro r _ p hp; cases hp
  | cons xy rest ih =>
    intro r h p hp
    simp only [ctcLoop] at h
    rcases List.mem_cons.mp hp with rfl | hmem
    · have hacc := ctcLoop_acc_zero rest _ h
      have hx := (or_eq_zero_parts _ _ hacc).2
      exact Char.eq_of_val_eq (UInt32.ext (Nat.xor_eq_zero.mp hx))
    · exact ih _ h p hmem

lemma eq_of_zip_forall_eq : ∀ (l1 l2 : List Char), l1.length = l2.length →
    (∀ p ∈ l1.zip l2, p.1 = p.2) → l1 = l2 := by
  intro l1
  induction l1 with
  | nil =>
    intro l2 hlen _
    exact (List.length_eq_zero.mp hlen.symm).symm
  | cons a l ih =>
    intro l2 hlen hall
    rcases l2 with _ | ⟨b, l2t⟩
    · exact absurd hlen (by simp)
    · have hab : a = b := hall (a, b) (by simp [List.zip_cons_cons])
      have ht := ih l2t (by simpa using hlen)
        (fun p hp => hall p (by simp [List.zip_cons_cons, hp]))
      rw [hab, ht]

lemma ctc_eq_true (v1 v2 : String) (h : constant_time_compare v1 v2 = true) : v1 = v2 := by
  by_cases hlen : v1.length ≠ v2.length
  · simp only [constant_time_compare] at h
    rw [if_pos hlen] at h
    exact absurd h (by simp)
  · simp only [constant_time_compare] at h
    rw [if_neg hlen] at h
    have hdl : v1.data.length = v2.data.length := not_not.mp hlen
    exact String.ext
      (eq_of_zip_forall_eq v1.data v2.data hdl (ctcLoop_zero_mem _ 0 (of_decide_eq_true h)))

lemma get_hexdigest_md5_length (salt raw : String) :
    (get_hexdigest "md5" salt raw).length = 32 := by
  simp [get_hexdigest, String.length]

/-- C1: round-trip — for every plaintext credential and every work factor
in the supported range `[4, 31]`, verifying the plaintext against the
stored hash that `set_password` produced from it returns true (and, both
functions being pure, does so deterministically on every repetition). -/
theorem C1_round_trip : ∀ (w : Int) (entropy : Nat) (u : User) (pw : String)
    (debug : Bool) (legacy : String → String → Bool),
    4 ≤ w → w ≤ 31 →
    ∃ h, set_password ⟨true, w⟩ entropy u (some pw) = Except.ok { u with password := h }
      ∧ check_password debug legacy pw h = Except.ok true := by
  intro w e u pw debug legacy h4 h31
  obtain ⟨H, h1, h2, _⟩ := roundtrip_core ⟨true, w⟩ e u pw debug legacy
  exact ⟨H, h1, h2⟩

/-- C1 witness: the round trip evaluated at work factor 12 and credential
`"password"`. -/
theorem C1_round_trip_witness :
    ∃ h, set_password ⟨true, 12⟩ 0 ⟨""⟩ (some "password") = Except.ok ⟨h⟩
      ∧ check_password true (fun _ _ => false) "password" h = Except.ok true :=
  C1_round_trip 12 0 ⟨""⟩ "password" true (fun _ _ => false) (by decide) (by decide)

/-- C2 counterexample: the empty stored value does not begin with `'$'`,
yet `check_password` does not return the legacy verifier's result for it
(here the legacy verifier returns true); it raises instead. -/
theorem C2_empty_not_delegated :
    ("" : String).data.head? ≠ some '$'
    ∧ check_password true (fun _ _ => true) "password" "" ≠ Except.ok true
    ∧ check_password true (fun _ _ => true) "password" "" = Except.error PyError.indexError :=
  ⟨by decide, by decide, by decide⟩

/-- C2 (amended): every NON-EMPTY stored value whose first character is
not `'$'` is delegated unchanged to the captured legacy verifier, whose
result is returned exactly, whatever that verifier is — in particular the
bcrypt comparison path does not contribute to the result. -/
theorem C2_legacy_dispatch : ∀ (debug : Bool) (legacy : String → String → Bool)
    (raw : String) (c : Char) (cs : List Char),
    c ≠ '$' →
    check_password debug legacy raw (String.mk (c :: cs))
      = Except.ok (legacy raw (String.mk (c :: cs))) :=
  fun debug legacy raw c cs h => check_password_legacy debug legacy raw c cs h

/-- C2 witness: the spec's own example, the legacy md5 value
`5f4dcc3b5aa765d61d8327deb882cf99` with plaintext `password`, returns
exactly what the legacy verifier returns (true here). -/
theorem C2_legacy_dispatch_witness :
    check_password true (fun _ _ => true) "password"
      (String.mk ('5' :: "f4dcc3b5aa765d61d8327deb882cf99".data)) = Except.ok true :=
  C2_legacy_dispatch true (fun _ _ => true) "password" '5'
    "f4dcc3b5aa765d61d8327deb882cf99".data (by decide)

/-- C3: for every plaintext, verifying against the empty stored string
raises an error in the spec's MalformedHashError taxon (the source's
IndexError on `enc_password[0]`): it neither returns a boolean nor
invokes the legacy verifier (the result is the same for every `legacy`). -/
theorem C3_empty_raises : ∀ (debug : Bool) (legacy : String → String → Bool) (raw : String),
    ∃ e, check_password debug legacy raw "" = Except.error e ∧ MalformedHashError e :=
  fun _ _ _ => ⟨PyError.indexError, rfl, Or.inl rfl⟩

/-- C4 counterexample: the out-of-range work factor 0 does not make hash
creation fail — `set_password` succeeds and the produced hash embeds the
clamped cost 4, because py-bcrypt's `gensalt` computes
`min(max(log_rounds, 4), 31)` instead of raising. -/
theorem C4_clamped_not_error :
    (set_password ⟨true, 0⟩ 0 ⟨""⟩ (some "password")).map (fun v => costOf v.password)
      = Except.ok (some 4) := by decide

/-- C4 (amended): hash creation never fails on any work factor; the
configured work factor is silently clamped into `[4, 31]` by the
underlying `gensalt`, and the clamped value is what the produced hash
embeds. -/
theorem C4_work_factor_clamped : ∀ (s : Settings) (entropy : Nat) (u : User) (pw : String),
    ∃ v, set_password s entropy u (some pw) = Except.ok v
      ∧ costOf v.password = some (min (max s.bcrypt_log_rounds 4) 31).toNat
      ∧ 4 ≤ (min (max s.bcrypt_log_rounds 4) 31).toNat
      ∧ (min (max s.bcrypt_log_rounds 4) 31).toNat ≤ 31 := by
  intro s e u pw
  obtain ⟨H, h1, _, h3⟩ := roundtrip_core s e u pw true (fun _ _ => false)
  obtain ⟨hb1, hb2⟩ := clamp_bounds s.bcrypt_log_rounds
  exact ⟨{ u with password := H }, h1, h3, hb1, hb2⟩

/-- C5 counterexample: with assertions stripped (`python -O`, modelled by
`debug = false`), the `'$'`-prefixed stored value `$1$04$` followed by 22
salt characters has the unrecognized tag `1`, yet verification neither
raises a MalformedHashError-taxon error nor refuses to answer: py-bcrypt
accepts the salt (any version character at most `'2'` passes its
`*salt > BCRYPT_VERSION` check), recomputes a `$2$04$...` hash, and the
comparison returns the boolean `False`. -/
theorem C5_optimized_returns_false :
    ¬(String.mk (takeUntilDollar "1$04$......................".data) = "2a"
      ∨ String.mk (takeUntilDollar "1$04$......................".data) = "2"
      ∨ String.mk (takeUntilDollar "1$04$......................".data) = "bcrypt")
    ∧ check_password false (fun _ _ => false) "x"
        (String.mk ('$' :: "1$04$......................".data)) = Except.ok false :=
  ⟨by decide, by decide⟩

/-- C5 (amended): for every `'$'`-prefixed stored value whose tag is not
in 2a, 2, bcrypt: with assertions enabled the check raises the
MalformedHashError-taxon AssertionError; with assertions stripped the
check is skipped and verification either raises py-bcrypt's `ValueError`
(salt unparseable) or returns the boolean `false` (salt parseable, but
the recomputed hash cannot coincide with the stored value); in neither
mode does the value ever verify as true — it is never silently
authenticated — but the enforcement is an optional (strippable) debug
assertion, not an always-identical runtime check. -/
theorem C5_bad_tag : ∀ (legacy : String → String → Bool) (raw : String) (cs : List Char),
    ¬(String.mk (takeUntilDollar cs) = "2a" ∨ String.mk (takeUntilDollar cs) = "2"
      ∨ String.mk (takeUntilDollar cs) = "bcrypt") →
    check_password true legacy raw (String.mk ('$' :: cs)) = Except.error PyError.assertionError
    ∧ MalformedHashError PyError.assertionError
    ∧ (check_password false legacy raw (String.mk ('$' :: cs))
          = Except.error PyError.valueError
        ∨ check_password false legacy raw (String.mk ('$' :: cs)) = Except.ok false)
    ∧ ∀ (debug : Bool),
        check_password debug legacy raw (String.mk ('$' :: cs)) ≠ Except.ok true := by
  intro legacy raw cs htag
  have hdich : check_password false legacy raw (String.mk ('$' :: cs))
        = Except.error PyError.valueError
      ∨ check_password false legacy raw (String.mk ('$' :: cs)) = Except.ok false := by
    rw [check_password_false_eval legacy raw cs]
    cases hps : parseSalt ('$' :: cs) with
    | none =>
      left
      rw [hashpw_parseSalt_none raw cs hps]
      rfl
    | some t =>
      obtain ⟨minor, r, s22⟩ := t
      right
      rw [hashpw_parseSalt raw cs minor r s22 hps]
      obtain ⟨c1, rest, hshape⟩ := parseSalt_shape cs minor r s22 hps
      have hc1 : c1 ≠ '2' := by
        intro he
        rcases hshape with ⟨hcs, _⟩ | ⟨hcs, _⟩
        · subst he; subst hcs
          have ht : takeUntilDollar ('2' :: '$' :: rest) = ['2'] := by
            simp [takeUntilDollar]
          exact htag (Or.inr (Or.inl (by rw [ht])))
        · subst he; subst hcs
          have ht : takeUntilDollar ('2' :: 'a' :: '$' :: rest) = ['2', 'a'] := by
            simp [takeUntilDollar]
          exact htag (Or.inl (by rw [ht]))
      have hne : String.mk ('$' :: cs) ≠ formatHash minor r s22 (bcdigest raw s22 r minor) := by
        intro he
        have hchar := congrArg (fun v : String => v.data[1]?) he
        rcases hshape with ⟨hcs, hm⟩ | ⟨hcs, hm⟩ <;> subst hm <;> subst hcs <;>
          exact hc1 (Option.some.inj hchar)
      have hctc : constant_time_compare (String.mk ('$' :: cs))
          (formatHash minor r s22 (bcdigest raw s22 r minor)) = false := by
        cases hcv : constant_time_compare (String.mk ('$' :: cs))
            (formatHash minor r s22 (bcdigest raw s22 r minor))
        · rfl
        · exact absurd (ctc_eq_true _ _ hcv) hne
      simp [Except.map, hctc]
  refine ⟨check_password_assert legacy raw cs htag, Or.inr rfl, hdich, ?_⟩
  intro debug
  cases debug
  · rcases hdich with hd | hd <;> rw [hd] <;> simp
  · rw [check_password_assert legacy raw cs htag]
    simp

/-- C5 witness: the amended claim evaluated at the stored value
`$sha1$xy`. -/
theorem C5_bad_tag_witness :
    check_password true (fun _ _ => false) "pw" (String.mk ('$' :: "sha1$xy".data))
        = Except.error PyError.assertionError
    ∧ MalformedHashError PyError.assertionError
    ∧ (check_password false (fun _ _ => false) "pw" (String.mk ('$' :: "sha1$xy".data))
          = Except.error PyError.valueError
        ∨ check_password false (fun _ _ => false) "pw" (String.mk ('$' :: "sha1$xy".data))
          = Except.ok false)
    ∧ ∀ (debug : Bool),
        check_password debug (fun _ _ => false) "pw" (String.mk ('$' :: "sha1$xy".data))
          ≠ Except.ok true :=
  C5_bad_tag (fun _ _ => false) "pw" "sha1$xy".data (by decide)

/-- C6: constant-time comparison — the comparison loop of
`constant_time_compare` executes exactly one iteration per character
whenever the lengths agree, independently of where (or whether) the first
mismatch occurs; the slow-hash path of `check_password` returns exactly
`constant_time_compare` of the stored value against the recomputed hash;
and `constant_time_compare` accepts equal strings. -/
theorem C6_constant_time :
    (∀ v1 v2 : String, v1.length = v2.length → ctcSteps v1 v2 = v1.length)
    ∧ (∀ (debug : Bool) (legacy : String → String → Bool) (raw : String) (cs : List Char),
        (String.mk (takeUntilDollar cs) = "2a" ∨ String.mk (takeUntilDollar cs) = "2"
          ∨ String.mk (takeUntilDollar cs) = "bcrypt") →
        check_password debug legacy raw (String.mk ('$' :: cs))
          = (hashpw (smart_str raw) (String.mk ('$' :: cs))).map
              (fun hashed => constant_time_compare (String.mk ('$' :: cs)) hashed))
    ∧ (∀ v : String, constant_time_compare v v = true) := by
  refine ⟨?_, ?_, ctc_self⟩
  · intro v1 v2 hlen
    have hd : v1.data.length = v2.data.length := hlen
    simp only [ctcSteps]
    rw [if_neg (not_ne_iff.mpr hlen)]
    rw [ctcLoop_steps, List.length_zip, hd, Nat.min_self]
    exact hd.symm
  · intro debug legacy raw cs htag
    simp only [check_password]
    rw [if_pos trivial]
    rw [if_neg (fun hand => hand.2 htag)]

/-- C6 witness: the structural properties evaluated at concrete strings of
equal length and at a concrete `$2a$`-tagged stored value. -/
theorem C6_constant_time_witness :
    ctcSteps "$2a$ab" "$2a$xy" = ("$2a$ab" : String).length
    ∧ check_password true (fun _ _ => false) "pw" (String.mk ('$' :: "2a$04$".data))
        = (hashpw (smart_str "pw") (String.mk ('$' :: "2a$04$".data))).map
            (fun hashed => constant_time_compare (String.mk ('$' :: "2a$04$".data)) hashed) :=
  ⟨C6_constant_time.1 "$2a$ab" "$2a$xy" (by decide),
   C6_constant_time.2.1 true (fun _ _ => false) "pw" "2a$04$".data (Or.inl (by decide))⟩

/-- C7: the sentinel `None` passed to `set_password` short-circuits to the
unusable marker `'!'`, and account-level verification of that marker
returns false for every plaintext (including the empty string), for any
assertion mode and any legacy verifier. -/
theorem C7_sentinel_unusable : ∀ (s : Settings) (entropy : Nat) (u : User) (raw : String)
    (debug : Bool) (legacy : String → String → Bool),
    set_password s entropy u none = Except.ok (set_unusable_password u)
    ∧ user_check_password debug legacy (set_unusable_password u) raw = Except.ok false := by
  intro s entropy u raw debug legacy
  refine ⟨rfl, ?_⟩
  have hne : ¬(("!" : String) = get_hexdigest "md5" "" raw) := by
    intro he
    have hlen := congrArg String.length he
    rw [get_hexdigest_md5_length] at hlen
    exact absurd hlen (by decide)
  simp only [user_check_password, set_unusable_password]
  rw [if_pos (by decide : ¬(('$' : Char) ∈ ("!" : String).data))]
  rw [decide_eq_false hne]

/-- C8: work-factor stability — a hash created while the configuration
held any work factor W1 embeds (the clamp of) W1 in the stored string and
still verifies with the original plaintext under every later configuration
(the verifier provably gives the same successful answer whatever the
current settings are, because it reads only the stored string). -/
theorem C8_work_factor_stability : ∀ (s1 s2 s2' : Settings) (entropy : Nat) (u : User)
    (pw : String) (debug : Bool) (legacy : String → String → Bool),
    ∃ h, set_password s1 entropy u (some pw) = Except.ok { u with password := h }
      ∧ costOf h = some (min (max s1.bcrypt_log_rounds 4) 31).toNat
      ∧ check_password_at s2 debug legacy pw h = Except.ok true
      ∧ check_password_at s2' debug legacy pw h = Except.ok true := by
  intro s1 s2 s2' e u pw debug legacy
  obtain ⟨H, h1, h2, h3⟩ := roundtrip_core s1 e u pw debug legacy
  exact ⟨H, h1, h3, h2, h2⟩

/-- C9 counterexample: load the module with `USE_BCRYPT = True`, then set
it to `False` before the next operation — the next `set_password` still
takes the bcrypt path, so the changed flag is not observed at operation
time (the two scenarios differ only in the import-time flag, yet give
different results under the same call-time settings). -/
theorem C9_use_bcrypt_not_live :
    effective_set_password ⟨true, 12⟩ ⟨false, 12⟩ 0 ⟨""⟩ (some "secret")
      ≠ effective_set_password ⟨false, 12⟩ ⟨false, 12⟩ 0 ⟨""⟩ (some "secret") := by decide

/-- C9 (amended): the work factor is read per operation — an operation
executed under call-time settings with a different work factor than the
import-time one embeds the call-time value — while the enable flag is
read once at module load. -/
theorem C9_live_work_factor : ∀ (loadS runS : Settings) (entropy : Nat) (u : User) (pw : String),
    loadS.use_bcrypt = true →
    ∃ v, effective_set_password loadS runS entropy u (some pw) = Except.ok v
      ∧ costOf v.password = some (min (max runS.bcrypt_log_rounds 4) 31).toNat := by
  intro loadS runS e u pw hflag
  obtain ⟨H, h1, _, h3⟩ := roundtrip_core runS e u pw true (fun _ _ => false)
  refine ⟨{ u with password := H }, ?_, h3⟩
  simp only [effective_set_password, hflag, if_true]
  exact h1

/-- C9 witness: loaded with work factor 5, called with work factor 10 —
the next hash embeds 10. -/
theorem C9_live_work_factor_witness :
    ∃ v, effective_set_password ⟨true, 5⟩ ⟨false, 10⟩ 0 ⟨""⟩ (some "pw") = Except.ok v
      ∧ costOf v.password = some 10 :=
  C9_live_work_factor ⟨true, 5⟩ ⟨false, 10⟩ 0 ⟨""⟩ "pw" rfl

/-- C10: a stored value beginning with `$bcrypt$` passes the tag assertion
(the tag `bcrypt` is in the allowed set), but the recomputation step hands
the whole stored value to `hashpw` as its salt, which rejects it
(`$bcrypt$...` is not a valid bcrypt salt), so verification raises
py-bcrypt's `ValueError` for every plaintext and never returns true. -/
theorem C10_bcrypt_tag_never_verifies : ∀ (debug : Bool) (legacy : String → String → Bool)
    (raw : String) (cs : List Char),
    check_password debug legacy raw
        (String.mk ('$' :: 'b' :: 'c' :: 'r' :: 'y' :: 'p' :: 't' :: '$' :: cs))
      = Except.error PyError.valueError := by
  intro debug legacy raw cs
  cases debug <;> rfl
